import Mathlib

/-
Verification development for the tmix-security authorization engine
(src/tmix-security.js).  The JavaScript source is shallowly embedded:
JS values become the inductive JVal, the provider-wide mutable state
becomes the structure SecState, fallible operations (the source throws
Error) return Except SecError, and the asynchronous fetch boundary is
modelled by an explicit transport oracle together with the cache write
it performs on success.

Modelling notes, recorded once here:
* JS property access on plain objects is modelled by own-key lookup in
  an association list; on arrays by canonical numeric index positions
  plus the length property; on strings by index positions plus length.
  Inherited prototype methods (indexOf, toString, ...) are not part of
  the documents this engine traverses and are not modelled.
* JS numbers appearing in permission documents are integers in every
  document the source and its tests use, so JVal carries Int.
* Property access on null or undefined throws a TypeError in JS; this
  is the Except Unit error of getProp and findIn.
-/

inductive JVal where
  | undef : JVal
  | null : JVal
  | bool : Bool → JVal
  | num : Int → JVal
  | str : String → JVal
  | arr : List JVal → JVal
  | obj : List (String × JVal) → JVal

/-- JS truthiness of a value. -/
def truthy : JVal → Bool
  | JVal.undef => false
  | JVal.null => false
  | JVal.bool b => b
  | JVal.num n => n != 0
  | JVal.str s => s != ""
  | JVal.arr _ => true
  | JVal.obj _ => true

def JVal.isUndef : JVal → Bool
  | JVal.undef => true
  | _ => false

/-- Own-key lookup on an object, undefined when the key is missing. -/
def objLookup : List (String × JVal) → String → JVal
  | [], _ => JVal.undef
  | (k, v) :: rest, key => if k = key then v else objLookup rest key

/-- Accumulator for reading a decimal numeral. -/
def digitsToNat : List Char → Nat → Nat
  | [], acc => acc
  | c :: cs, acc => digitsToNat cs (acc * 10 + (c.toNat - 48))

/-- A string is a canonical JS array index when it is the decimal numeral
of a natural number without leading zeros. -/
def canonIndex (s : String) : Option Nat :=
  match s.data with
  | [] => none
  | c :: cs =>
    if (c :: cs).all Char.isDigit then
      if c = '0' ∧ cs ≠ [] then none
      else some (digitsToNat (c :: cs) 0)
    else none

/-- JS property access cursor[token]; the error is the TypeError raised on
accessing a property of null or undefined. -/
def getProp : JVal → String → Except Unit JVal
  | JVal.undef, _ => Except.error ()
  | JVal.null, _ => Except.error ()
  | JVal.bool _, _ => Except.ok JVal.undef
  | JVal.num _, _ => Except.ok JVal.undef
  | JVal.str s, t =>
    if t = "length" then Except.ok (JVal.num s.length)
    else
      match canonIndex t with
      | some i =>
        match s.data.get? i with
        | some c => Except.ok (JVal.str c.toString)
        | none => Except.ok JVal.undef
      | none => Except.ok JVal.undef
  | JVal.arr l, t =>
    if t = "length" then Except.ok (JVal.num l.length)
    else
      match canonIndex t with
      | some i => Except.ok (l.getD i JVal.undef)
      | none => Except.ok JVal.undef
  | JVal.obj kvs, t => Except.ok (objLookup kvs t)

/-- Bool-valued prefix test on character lists. -/
def isPrefixOfB : List Char → List Char → Bool
  | [], _ => true
  | _ :: _, [] => false
  | d :: ds, c :: cs => d = c && isPrefixOfB ds cs

/-- Fuel-indexed splitter; the fuel is always at least the length of the
character list, so the fuel-exhausted arm is never reached. -/
def jsSplitGo (sep : List Char) : Nat → List Char → List Char → List (List Char)
  | _, [], acc => [acc.reverse]
  | 0, l, acc => [acc.reverse ++ l]
  | Nat.succ fuel, c :: cs, acc =>
    if isPrefixOfB sep (c :: cs) then
      acc.reverse :: jsSplitGo sep fuel (List.drop (sep.length - 1) cs) []
    else
      jsSplitGo sep fuel cs (c :: acc)

/-- JS String.prototype.split with a string separator. -/
def jsSplit (s : String) (sep : String) : List String :=
  if sep = "" then s.data.map Char.toString
  else (jsSplitGo sep.data s.data.length s.data []).map (fun l => String.mk l)

/-- JS cursor.indexOf(token) !== -1 where token is a string: strict
equality matches only string elements equal to the token. -/
def arrContainsStr (l : List JVal) (s : String) : Bool :=
  l.any (fun v =>
    match v with
    | JVal.str t => t == s
    | _ => false)

/-- The token loop of findIn: the cursor advances through a defined
property, failing that through array membership, otherwise it becomes
null and the loop breaks. -/
def findInLoop : JVal → List String → Except Unit JVal
  | cursor, [] => Except.ok cursor
  | cursor, token :: rest =>
    match getProp cursor token with
    | Except.error e => Except.error e
    | Except.ok p =>
      if !p.isUndef then findInLoop p rest
      else
        match cursor with
        | JVal.arr l =>
          if arrContainsStr l token then findInLoop (JVal.str token) rest
          else Except.ok JVal.null
        | _ => Except.ok JVal.null

/-- findIn(query, object, delimiter) from the source; a falsy delimiter
(absent is modelled as the empty string) falls back to the slash. -/
def findIn (query : String) (doc : JVal) (delimiter : String) : Except Unit Bool :=
  match findInLoop doc (jsSplit query (if delimiter = "" then "/" else delimiter)) with
  | Except.error e => Except.error e
  | Except.ok c => Except.ok (truthy c)

/-- Errors thrown by the provider. routeNotFound is the message
"Could not find route: ..." of getRoute; customRouteAuthorizationNotSet
is thrown by getCustomRouteAuthorization; customAuthorizationNotSet by
getCustomAuthorization; unknownRouteForDeniedRoute by
setAccessDeniedRouteFor (its message stringifies the route object);
typeError is a JS TypeError escaping from findIn. -/
inductive SecError where
  | routeNotFound : String → SecError
  | customRouteAuthorizationNotSet : String → SecError
  | customAuthorizationNotSet : SecError
  | unknownRouteForDeniedRoute : String → SecError
  | typeError : SecError
deriving DecidableEq

/-- Data fields of a route descriptor read by the engine.  permissions is
undef when the route declares none; deniedRoute is the empty string when
the route declares none (both tests are JS truthiness in the source).
The customAuthorization function field lives in SecState.routeAuth,
keyed by the same route path, because a function field referring back to
the descriptor type is not expressible as a plain structure field. -/
structure RouteData where
  permissions : JVal
  deniedRoute : String

/-- An authorization strategy: (query, permissions, route, routeParams)
to a JS value whose truthiness is the decision. -/
def AuthFn : Type := JVal → JVal → RouteData → JVal → JVal

/-- The query argument of isAuthorized: a JS value or a function. -/
inductive Query where
  | val : JVal → Query
  | fn : AuthFn → Query

/-- The JS value handed to a strategy as its first argument.  For a
function query the source passes the function object itself; function
values are not first-class in JVal, so the model passes undefined.  No
theorem below inspects that corner. -/
def Query.asVal : Query → JVal
  | Query.val v => v
  | Query.fn _ => JVal.undef

/-- Observable interactions with the external collaborators: one HTTP
fetch, and the two $location calls made by redirect(). -/
inductive Effect where
  | httpGet : String → Effect
  | locationSetPath : String → Effect
  | locationReplace : Effect
deriving DecidableEq

/-- The provider-wide mutable state: the route table and current-route
data owned by the $route collaborator, the permissions cache, and the
process-wide singletons. -/
structure SecState where
  routes : List (String × RouteData)
  routeAuth : List (String × AuthFn)
  currentRoutePath : String
  currentParams : JVal
  locationPath : String
  cache : List (String × JVal)
  defaultPermissions : JVal
  customAuthorization : Option AuthFn
  defaultAccess : Bool

/-- routePath || getCurrentRoutePath(): the empty string models an
absent or falsy routePath argument. -/
def resolvePath (st : SecState) (routePath : String) : String :=
  if routePath = "" then st.currentRoutePath else routePath

/-- First-match association lookup, the property read on a JS object used
as a table. -/
def assocFind {α : Type} : List (String × α) → String → Option α
  | [], _ => none
  | (k, v) :: rest, key => if k = key then some v else assocFind rest key

def routeLookup (st : SecState) (routePath : String) : Option RouteData :=
  assocFind st.routes routePath

def routeAuthLookup (st : SecState) (routePath : String) : Option AuthFn :=
  assocFind st.routeAuth routePath

/-- Association-list update used to model in-place mutation of a route
object reached through the route table. -/
def routesUpdate (routes : List (String × RouteData)) (routePath : String)
    (rd : RouteData) : List (String × RouteData) :=
  routes.map (fun p => if p.1 = routePath then (p.1, rd) else p)

/-- getRoute throws when the route table has no entry for the path. -/
def getRoute (st : SecState) (routePath : String) : Except SecError RouteData :=
  match routeLookup st routePath with
  | some rd => Except.ok rd
  | none => Except.error (SecError.routeNotFound routePath)

/-- $cacheFactory get: undefined on a miss. -/
def cacheGet : List (String × JVal) → String → JVal
  | [], _ => JVal.undef
  | (k, v) :: rest, key => if k = key then v else cacheGet rest key

/-- $cacheFactory put: replaces any previous entry under the key. -/
def cachePut (c : List (String × JVal)) (key : String) (doc : JVal) :
    List (String × JVal) :=
  (key, doc) :: c.filter (fun p => p.1 != key)

/-- clearPermissionsCache: cache.removeAll(). -/
def clearPermissionsCache (st : SecState) : SecState :=
  { st with cache := [] }

/-- getPermissionsFromRoute: the route permissions field when truthy,
otherwise the process-wide default permissions. -/
def getPermissionsFromRoute (st : SecState) (routePath : String) :
    Except SecError JVal :=
  let rp := resolvePath st routePath
  match getRoute st rp with
  | Except.error e => Except.error e
  | Except.ok route =>
    Except.ok (if truthy route.permissions then route.permissions
               else st.defaultPermissions)

/-- getPermissionsSync: for a URL (string) permission source, the cached
document or undefined; for anything else the value itself. -/
def getPermissionsSync (st : SecState) (routePath : String) :
    Except SecError JVal :=
  match getPermissionsFromRoute st routePath with
  | Except.error e => Except.error e
  | Except.ok routePermissions =>
    match routePermissions with
    | JVal.str url => Except.ok (cacheGet st.cache url)
    | v => Except.ok v

/-- getPermissionsSync(routePath) || \x7b\x7d: the permissions value the
decision chain evaluates against. -/
def permsUsed (st : SecState) (routePath : String) : Except SecError JVal :=
  match getPermissionsSync st routePath with
  | Except.error e => Except.error e
  | Except.ok v => Except.ok (if truthy v then v else JVal.obj [])

/-- Error-free view of permsUsed for stating hypotheses. -/
def permsUsedOrEmpty (st : SecState) (routePath : String) : JVal :=
  match permsUsed st routePath with
  | Except.ok v => v
  | Except.error _ => JVal.obj []

/-- What getPermissions promises: a document already at hand, or a fetch
of the given URL that must settle first. -/
inductive GetPermsOutcome where
  | fetchFrom : String → GetPermsOutcome
  | immediate : JVal → GetPermsOutcome

/-- getPermissions: fetch when the route permissions are a URL and the
cache misses, otherwise an already-resolved promise. -/
def getPermissions (st : SecState) (routePath : String) :
    Except SecError GetPermsOutcome :=
  match getPermissionsFromRoute st routePath with
  | Except.error e => Except.error e
  | Except.ok routePermissions =>
    match getPermissionsSync st routePath with
    | Except.error e => Except.error e
    | Except.ok permissions =>
      match routePermissions with
      | JVal.str url =>
        if permissions.isUndef then Except.ok (GetPermsOutcome.fetchFrom url)
        else Except.ok (GetPermsOutcome.immediate permissions)
      | _ => Except.ok (GetPermsOutcome.immediate permissions)

/-- Result of the HTTP transport for one URL. -/
inductive FetchResult where
  | success : JVal → FetchResult
  | failure : FetchResult

/-- The cache write performed by retrievePermissions when the transport
succeeds, before the promise resolves with the document. -/
def applyFetchSuccess (st : SecState) (url : String) (doc : JVal) : SecState :=
  { st with cache := cachePut st.cache url doc }

/-- hasCustomRouteAuthorization: getRoute first (it throws on unknown
routes), then routePath truthy and the customAuthorization field a
function. -/
def hasCustomRouteAuthorization (st : SecState) (routePath : String) :
    Except SecError Bool :=
  match getRoute st routePath with
  | Except.error e => Except.error e
  | Except.ok _ =>
    Except.ok (decide (routePath ≠ "") && (routeAuthLookup st routePath).isSome)

/-- getCustomRouteAuthorization: defaults the path to the current route,
then throws unless that route carries a strategy. -/
def getCustomRouteAuthorization (st : SecState) (routePath : String) :
    Except SecError AuthFn :=
  let rp := resolvePath st routePath
  match getRoute st rp with
  | Except.error e => Except.error e
  | Except.ok _ =>
    match routeAuthLookup st rp with
    | some f =>
      if rp = "" then Except.error (SecError.customRouteAuthorizationNotSet rp)
      else Except.ok f
    | none => Except.error (SecError.customRouteAuthorizationNotSet rp)

/-- isAuthorized: the priority chain.  Note for branch 1: the source calls
getCustomRouteAuthorization() without its routePath argument, so the
strategy lookup falls back to the current route.  For branch 5 the source
passes the query function itself as first argument (Query.asVal). -/
def isAuthorized (st : SecState) (query : Query) (routePath : String) :
    Except SecError Bool :=
  let rp := resolvePath st routePath
  match getRoute st rp with
  | Except.error e => Except.error e
  | Except.ok route =>
    let routeParams := st.currentParams
    match permsUsed st rp with
    | Except.error e => Except.error e
    | Except.ok permissions =>
      match hasCustomRouteAuthorization st rp with
      | Except.error e => Except.error e
      | Except.ok hasRA =>
        if hasRA then
          match getCustomRouteAuthorization st "" with
          | Except.error e => Except.error e
          | Except.ok method =>
            Except.ok (truthy (method query.asVal permissions route routeParams))
        else
          match st.customAuthorization with
          | some method =>
            Except.ok (truthy (method query.asVal permissions route routeParams))
          | none =>
            match query with
            | Query.val (JVal.str s) =>
              (match permissions with
               | JVal.arr l => Except.ok (arrContainsStr l s)
               | p =>
                 match findIn s p "" with
                 | Except.ok b => Except.ok b
                 | Except.error _ => Except.error SecError.typeError)
            | Query.fn f =>
              Except.ok (truthy (f (Query.fn f).asVal permissions route routeParams))
            | Query.val _ => Except.ok st.defaultAccess

/-- setDefaultAccess stores the coerced boolean. -/
def setDefaultAccess (st : SecState) (allowOrDeny : JVal) : SecState :=
  { st with defaultAccess := truthy allowOrDeny }

/-- setPermissions writes the permissions field of an existing route. -/
def setPermissions (st : SecState) (permissions : JVal) (routePath : String) :
    Except SecError SecState :=
  let rp := resolvePath st routePath
  match getRoute st rp with
  | Except.error e => Except.error e
  | Except.ok route =>
    Except.ok { st with
      routes := routesUpdate st.routes rp { route with permissions := permissions } }

/-- getAccessDeniedRouteFor: the deniedRoute field when truthy, otherwise
the fixed default /forbidden. -/
def getAccessDeniedRouteFor (st : SecState) (routePath : String) :
    Except SecError String :=
  match getRoute st (resolvePath st routePath) with
  | Except.error e => Except.error e
  | Except.ok route =>
    Except.ok (if route.deniedRoute ≠ "" then route.deniedRoute else "/forbidden")

/-- setAccessDeniedRouteFor: after resolving the route object, the source
indexes the route table with that object; a plain object used as a
property key coerces to the string [object Object], so the guard consults
the table at that key. -/
def setAccessDeniedRouteFor (st : SecState) (deniedRoute : String)
    (routePath : String) : Except SecError SecState :=
  let rp := resolvePath st routePath
  match getRoute st rp with
  | Except.error e => Except.error e
  | Except.ok route =>
    match routeLookup st "[object Object]" with
    | none => Except.error (SecError.unknownRouteForDeniedRoute "[object Object]")
    | some _ =>
      Except.ok { st with
        routes := routesUpdate st.routes rp { route with deniedRoute := deniedRoute } }

/-- redirect(): the two $location calls aimed at the access-denied route
of the current route. -/
def redirect (st : SecState) : Except SecError (List Effect) :=
  match getAccessDeniedRouteFor st st.currentRoutePath with
  | Except.error e => Except.error e
  | Except.ok newRoute =>
    Except.ok [Effect.locationSetPath newRoute, Effect.locationReplace]

/-- State after the pre-load step of authorizeOrRedirect: a cache write
exactly when getPermissions demanded a fetch and the transport succeeded. -/
def gateState (st : SecState) (transport : String → FetchResult) : SecState :=
  match getPermissions st "" with
  | Except.ok (GetPermsOutcome.fetchFrom url) =>
    match transport url with
    | FetchResult.success doc => applyFetchSuccess st url doc
    | FetchResult.failure => st
  | _ => st

/-- Transport traffic of the pre-load step. -/
def gateEffects (st : SecState) : List Effect :=
  match getPermissions st "" with
  | Except.ok (GetPermsOutcome.fetchFrom url) => [Effect.httpGet url]
  | _ => []

/-- Outcome of the promise returned by authorizeOrRedirect. -/
inductive GateResult where
  | resolvedTrue : GateResult
  | rejectedFalse : GateResult
deriving DecidableEq

/-- authorizeOrRedirect: capture $location.path(), pre-load permissions
for the current route (success and failure both continue), then decide
with isAuthorized; on denial the promise rejects with false and redirect()
runs.  An exception raised inside the promise callback leaves the deferred
unsettled in the source; the model surfaces it as the error case. -/
def authorizeOrRedirect (st : SecState) (transport : String → FetchResult) :
    Except SecError (GateResult × SecState × List Effect) :=
  match getPermissions st "" with
  | Except.error e => Except.error e
  | Except.ok _ =>
    let st2 := gateState st transport
    let fx := gateEffects st
    match isAuthorized st2 (Query.val (JVal.str st.locationPath)) "" with
    | Except.error e => Except.error e
    | Except.ok true => Except.ok (GateResult.resolvedTrue, st2, fx)
    | Except.ok false =>
      match redirect st2 with
      | Except.error e => Except.error e
      | Except.ok rfx => Except.ok (GateResult.rejectedFalse, st2, fx ++ rfx)

mutual

/-- A document free of null and undefined at every position; traversing
such a document can never raise the TypeError of getProp. -/
def nullFree : JVal → Bool
  | JVal.undef => false
  | JVal.null => false
  | JVal.bool _ => true
  | JVal.num _ => true
  | JVal.str _ => true
  | JVal.arr l => nullFreeList l
  | JVal.obj kvs => nullFreeObj kvs

def nullFreeList : List JVal → Bool
  | [] => true
  | v :: vs => nullFree v && nullFreeList vs

def nullFreeObj : List (String × JVal) → Bool
  | [] => true
  | (_, v) :: kvs => nullFree v && nullFreeObj kvs

end

def objHasKey (kvs : List (String × JVal)) (t : String) : Bool :=
  kvs.any (fun p => p.1 == t)

/-- Modelled from the claim wording of C2 (spec 4.3): a mapping advances
through a key equal to the token; else a sequence advances through a
contained element equal to the token with no type coercion; otherwise the
cursor is not found and iteration stops; the result is the truthiness of
the final cursor. -/
def findInSpecLoop : JVal → List String → Bool
  | cursor, [] => truthy cursor
  | cursor, t :: ts =>
    match cursor with
    | JVal.obj kvs =>
      if objHasKey kvs t then findInSpecLoop (objLookup kvs t) ts else false
    | JVal.arr l =>
      if arrContainsStr l t then findInSpecLoop (JVal.str t) ts else false
    | _ => false

/-- Modelled from the claim wording of C2: findIn per the claimed
algorithm. -/
def findInSpec (query : String) (doc : JVal) (delimiter : String) : Bool :=
  findInSpecLoop doc (jsSplit query (if delimiter = "" then "/" else delimiter))

/-- One token step of the amended C2 description: first a defined property
named by the token (mapping key, sequence index position or length,
string index position or length); failing that, a sequence element
strictly equal to the token; otherwise stop.  Property access on null or
undefined throws. -/
def amendedStep (cursor : JVal) (token : String) : Except Unit (Option JVal) :=
  match getProp cursor token with
  | Except.error e => Except.error e
  | Except.ok p =>
    if !p.isUndef then Except.ok (some p)
    else
      match cursor with
      | JVal.arr l =>
        Except.ok (if arrContainsStr l token then some (JVal.str token) else none)
      | _ => Except.ok none

def findInAmendedLoop : JVal → List String → Except Unit Bool
  | cursor, [] => Except.ok (truthy cursor)
  | cursor, t :: ts =>
    match amendedStep cursor t with
    | Except.error e => Except.error e
    | Except.ok (some c) => findInAmendedLoop c ts
    | Except.ok none => Except.ok false

/-- Modelled from the amended C2 description: split on the delimiter
(default slash, also for an empty delimiter), run the amended step per
token, report the truthiness of the final cursor, false on a stop. -/
def findInAmended (query : String) (doc : JVal) (delimiter : String) :
    Except Unit Bool :=
  findInAmendedLoop doc (jsSplit query (if delimiter = "" then "/" else delimiter))

/-- The array document of the C2 counterexample. -/
def c2Doc : JVal := JVal.arr [JVal.num 5, JVal.num 6, JVal.num 7]

/-- Per-route strategy of the C1 scenario: allows everything. -/
def c1AuthFn : AuthFn := fun _ _ _ _ => JVal.bool true

/-- C1 scenario: the current route / has no per-route strategy; route /r
has one. -/
def c1St : SecState :=
  { routes := [("/", { permissions := JVal.undef, deniedRoute := "" }),
               ("/r", { permissions := JVal.undef, deniedRoute := "" })],
    routeAuth := [("/r", c1AuthFn)],
    currentRoutePath := "/",
    currentParams := JVal.obj [],
    locationPath := "/",
    cache := [],
    defaultPermissions := JVal.undef,
    customAuthorization := none,
    defaultAccess := false }

/-- C3 witness scenario: a current route with no permissions, no
overrides, default deny. -/
def c3St : SecState :=
  { routes := [("/", { permissions := JVal.undef, deniedRoute := "" })],
    routeAuth := [],
    currentRoutePath := "/",
    currentParams := JVal.obj [],
    locationPath := "/",
    cache := [],
    defaultPermissions := JVal.undef,
    customAuthorization := none,
    defaultAccess := false }

def c3Transport : String → FetchResult := fun _ => FetchResult.failure

/-- C4 witness scenario: route /g draws its permissions from the URL u. -/
def c4St : SecState :=
  { routes := [("/g", { permissions := JVal.str "u", deniedRoute := "" })],
    routeAuth := [],
    currentRoutePath := "/g",
    currentParams := JVal.obj [],
    locationPath := "/g",
    cache := [],
    defaultPermissions := JVal.undef,
    customAuthorization := none,
    defaultAccess := false }

/-- C5 scenario with sequence permissions. -/
def c5StArr : SecState :=
  { routes := [("/", { permissions := JVal.arr [JVal.str "/a", JVal.str "/b"],
                       deniedRoute := "" })],
    routeAuth := [],
    currentRoutePath := "/",
    currentParams := JVal.obj [],
    locationPath := "/",
    cache := [],
    defaultPermissions := JVal.undef,
    customAuthorization := none,
    defaultAccess := false }

/-- C5 scenario with the mapping permissions of the claim, canEdit
holding the two-element sequence [1, 2]. -/
def c5StMap : SecState :=
  { routes := [("/", { permissions :=
                         JVal.obj [("canEdit", JVal.arr [JVal.num 1, JVal.num 2])],
                       deniedRoute := "" })],
    routeAuth := [],
    currentRoutePath := "/",
    currentParams := JVal.obj [],
    locationPath := "/",
    cache := [],
    defaultPermissions := JVal.undef,
    customAuthorization := none,
    defaultAccess := false }

/-- C5 scenario with canEdit holding [1, 2, 3], the shape the repository
test suite uses. -/
def c5StMap3 : SecState :=
  { routes := [("/", { permissions :=
                         JVal.obj [("canEdit",
                            JVal.arr [JVal.num 1, JVal.num 2, JVal.num 3])],
                       deniedRoute := "" })],
    routeAuth := [],
    currentRoutePath := "/",
    currentParams := JVal.obj [],
    locationPath := "/",
    cache := [],
    defaultPermissions := JVal.undef,
    customAuthorization := none,
    defaultAccess := false }

/-- C6 witness scenario: no permissions anywhere, no overrides. -/
def c6St : SecState :=
  { routes := [("/", { permissions := JVal.undef, deniedRoute := "" })],
    routeAuth := [],
    currentRoutePath := "/",
    currentParams := JVal.obj [],
    locationPath := "/",
    cache := [],
    defaultPermissions := JVal.undef,
    customAuthorization := none,
    defaultAccess := false }

/-- C7 witness scenario: URL permissions with a cold cache, so the
synchronous resolver misses while getPermissions would fetch. -/
def c7St : SecState :=
  { routes := [("/u", { permissions := JVal.str "http://x", deniedRoute := "" })],
    routeAuth := [],
    currentRoutePath := "/u",
    currentParams := JVal.obj [],
    locationPath := "/u",
    cache := [],
    defaultPermissions := JVal.undef,
    customAuthorization := none,
    defaultAccess := false }

/-- C9 witness scenario: one known route with truthy object permissions. -/
def c9St : SecState :=
  { routes := [("/", { permissions := JVal.obj [("k", JVal.num 1)],
                       deniedRoute := "" })],
    routeAuth := [],
    currentRoutePath := "/",
    currentParams := JVal.obj [],
    locationPath := "/",
    cache := [],
    defaultPermissions := JVal.undef,
    customAuthorization := none,
    defaultAccess := false }

/-- C10 witness scenario: an ordinary route table. -/
def c10St : SecState :=
  { routes := [("/", { permissions := JVal.undef, deniedRoute := "" })],
    routeAuth := [],
    currentRoutePath := "/",
    currentParams := JVal.obj [],
    locationPath := "/",
    cache := [],
    defaultPermissions := JVal.undef,
    customAuthorization := none,
    defaultAccess := false }

def c8Doc : JVal :=
  JVal.obj
    [("GET", JVal.obj
        [("page", JVal.arr [JVal.num 1, JVal.num 2, JVal.num 3]),
         ("other", JVal.arr [JVal.num 1, JVal.str "a/b"])]),
     ("PUT", JVal.obj [("page", JVal.arr [JVal.num 1])])]

/-- Claim C8: for the document with GET.page = [1,2,3], GET.other = [1,"a/b"]
and PUT.page = [1], findIn("GET/page/1") is true, findIn("GET/page/4") is
false, findIn("PUT/page") is true, findIn("GET#other#a/b", "#") is true and
findIn("GET#page/1", "#") is false. -/
theorem c8_matcher_correctness :
    findIn "GET/page/1" c8Doc "" = Except.ok true ∧
    findIn "GET/page/4" c8Doc "" = Except.ok false ∧
    findIn "PUT/page" c8Doc "" = Except.ok true ∧
    findIn "GET#other#a/b" c8Doc "#" = Except.ok true ∧
    findIn "GET#page/1" c8Doc "#" = Except.ok false := by
  refine ⟨rfl, rfl, rfl, rfl, rfl⟩

theorem resolvePath_idem (st : SecState) (rp : String) :
    resolvePath st (resolvePath st rp) = resolvePath st rp := by
  unfold resolvePath
  by_cases h : rp = ""
  · simp [h]
  · simp [h]

theorem resolvePath_current (st : SecState) :
    resolvePath st st.currentRoutePath = st.currentRoutePath := by
  unfold resolvePath
  split <;> simp_all

theorem resolvePath_empty (st : SecState) :
    resolvePath st "" = st.currentRoutePath := by
  unfold resolvePath
  simp

theorem cacheGet_cachePut (c : List (String × JVal)) (key : String) (doc : JVal) :
    cacheGet (cachePut c key doc) key = doc := by
  simp [cachePut, cacheGet]

theorem isUndef_eq_false {v : JVal} (h : v ≠ JVal.undef) : v.isUndef = false := by
  cases v <;> simp_all [JVal.isUndef]

theorem nullFreeList_getD (l : List JVal) (i : Nat) (h : nullFreeList l = true) :
    l.getD i JVal.undef = JVal.undef ∨ nullFree (l.getD i JVal.undef) = true := by
  induction l generalizing i with
  | nil => left; simp [List.getD]
  | cons v vs ih =>
    rw [nullFreeList] at h
    simp only [Bool.and_eq_true] at h
    cases i with
    | zero => right; simpa [List.getD] using h.1
    | succ n => simpa [List.getD] using ih n h.2

theorem objLookup_nullFree (kvs : List (String × JVal)) (t : String)
    (h : nullFreeObj kvs = true) :
    objLookup kvs t = JVal.undef ∨ nullFree (objLookup kvs t) = true := by
  induction kvs with
  | nil => left; rfl
  | cons kv rest ih =>
    obtain ⟨k, v⟩ := kv
    rw [nullFreeObj] at h
    simp only [Bool.and_eq_true] at h
    rw [objLookup]
    by_cases hk : k = t
    · right; simpa [hk] using h.1
    · simpa [hk] using ih h.2

theorem getProp_nullFree (c : JVal) (t : String) (h : nullFree c = true) :
    ∃ p, getProp c t = Except.ok p ∧ (p = JVal.undef ∨ nullFree p = true) := by
  cases c with
  | undef => simp [nullFree] at h
  | null => simp [nullFree] at h
  | bool b => exact ⟨JVal.undef, rfl, Or.inl rfl⟩
  | num n => exact ⟨JVal.undef, rfl, Or.inl rfl⟩
  | str s =>
    simp only [getProp]
    split
    · exact ⟨_, rfl, Or.inr (by simp [nullFree])⟩
    · split
      · split
        · exact ⟨_, rfl, Or.inr (by simp [nullFree])⟩
        · exact ⟨_, rfl, Or.inl rfl⟩
      · exact ⟨_, rfl, Or.inl rfl⟩
  | arr l =>
    simp only [nullFree] at h
    simp only [getProp]
    split
    · exact ⟨_, rfl, Or.inr (by simp [nullFree])⟩
    · split
      · exact ⟨_, rfl, nullFreeList_getD l _ h⟩
      · exact ⟨_, rfl, Or.inl rfl⟩
  | obj kvs =>
    simp only [nullFree] at h
    exact ⟨_, rfl, objLookup_nullFree kvs t h⟩

theorem findInLoop_ok (ts : List String) :
    ∀ c : JVal, nullFree c = true → ∃ v, findInLoop c ts = Except.ok v := by
  induction ts with
  | nil => intro c _; exact ⟨c, rfl⟩
  | cons t ts ih =>
    intro c hc
    obtain ⟨p, hp, hcase⟩ := getProp_nullFree c t hc
    by_cases hu : p.isUndef = true
    · cases c with
      | undef => simp [nullFree] at hc
      | null => simp [nullFree] at hc
      | bool b => exact ⟨JVal.null, by simp [findInLoop, hp, hu]⟩
      | num n => exact ⟨JVal.null, by simp [findInLoop, hp, hu]⟩
      | str s => exact ⟨JVal.null, by simp [findInLoop, hp, hu]⟩
      | obj kvs => exact ⟨JVal.null, by simp [findInLoop, hp, hu]⟩
      | arr l =>
        by_cases hmem : arrContainsStr l t = true
        · obtain ⟨v, hv⟩ := ih (JVal.str t) (by simp [nullFree])
          exact ⟨v, by simp [findInLoop, hp, hu, hmem, hv]⟩
        · simp only [Bool.not_eq_true] at hmem
          exact ⟨JVal.null, by simp [findInLoop, hp, hu, hmem]⟩
    · have hnp : nullFree p = true := by
        rcases hcase with h1 | h2
        · subst h1; simp [JVal.isUndef] at hu
        · exact h2
      simp only [Bool.not_eq_true] at hu
      obtain ⟨v, hv⟩ := ih p hnp
      exact ⟨v, by simp [findInLoop, hp, hu, hv]⟩

theorem findIn_ok (q : String) (doc : JVal) (d : String)
    (h : nullFree doc = true) :
    ∃ b, findIn q doc d = Except.ok b := by
  obtain ⟨v, hv⟩ := findInLoop_ok (jsSplit q (if d = "" then "/" else d)) doc h
  exact ⟨truthy v, by rw [findIn, hv]⟩

theorem getRoute_ok (st : SecState) (rp : String) (rd : RouteData)
    (h : routeLookup st rp = some rd) : getRoute st rp = Except.ok rd := by
  unfold getRoute
  rw [h]

theorem getPermissionsFromRoute_ok (st : SecState) (rp : String) (rd : RouteData)
    (h : routeLookup st (resolvePath st rp) = some rd) :
    getPermissionsFromRoute st rp =
      Except.ok (if truthy rd.permissions then rd.permissions
                 else st.defaultPermissions) := by
  simp only [getPermissionsFromRoute]
  rw [getRoute_ok st _ rd h]

theorem getPermissionsSync_eq (st : SecState) (rp : String) (rd : RouteData)
    (h : routeLookup st (resolvePath st rp) = some rd) :
    getPermissionsSync st rp =
      (match (if truthy rd.permissions then rd.permissions
              else st.defaultPermissions) with
       | JVal.str url => Except.ok (cacheGet st.cache url)
       | v => Except.ok v) := by
  unfold getPermissionsSync
  rw [getPermissionsFromRoute_ok st rp rd h]

theorem getPermissionsSync_isOk (st : SecState) (rp : String) (rd : RouteData)
    (h : routeLookup st (resolvePath st rp) = some rd) :
    ∃ v, getPermissionsSync st rp = Except.ok v := by
  rw [getPermissionsSync_eq st rp rd h]
  split <;> exact ⟨_, rfl⟩

theorem permsUsed_isOk (st : SecState) (rp : String) (rd : RouteData)
    (h : routeLookup st (resolvePath st rp) = some rd) :
    ∃ v, permsUsed st rp = Except.ok v := by
  obtain ⟨w, hw⟩ := getPermissionsSync_isOk st rp rd h
  unfold permsUsed
  rw [hw]
  exact ⟨_, rfl⟩

theorem permsUsedOrEmpty_spec (st : SecState) (rp : String) (v : JVal)
    (h : permsUsed st rp = Except.ok v) : permsUsedOrEmpty st rp = v := by
  unfold permsUsedOrEmpty
  rw [h]

theorem hasCustomRouteAuthorization_ok (st : SecState) (rp : String) (rd : RouteData)
    (h : routeLookup st rp = some rd) :
    hasCustomRouteAuthorization st rp =
      Except.ok (decide (rp ≠ "") && (routeAuthLookup st rp).isSome) := by
  unfold hasCustomRouteAuthorization
  rw [getRoute_ok st rp rd h]

theorem isAuthorized_current_ok (st : SecState) (q : Query) (rd : RouteData)
    (hr : routeLookup st st.currentRoutePath = some rd)
    (hperm : nullFree (permsUsedOrEmpty st st.currentRoutePath) = true) :
    ∃ b, isAuthorized st q "" = Except.ok b := by
  have hres : resolvePath st "" = st.currentRoutePath := resolvePath_empty st
  have hr2 : routeLookup st (resolvePath st st.currentRoutePath) = some rd := by
    rw [resolvePath_current]; exact hr
  obtain ⟨pv, hpv⟩ := permsUsed_isOk st st.currentRoutePath rd hr2
  have hpe : permsUsedOrEmpty st st.currentRoutePath = pv :=
    permsUsedOrEmpty_spec st st.currentRoutePath pv hpv
  have hnf : nullFree pv = true := by rw [← hpe]; exact hperm
  simp only [isAuthorized, hres, getRoute_ok st _ rd hr, hpv,
    hasCustomRouteAuthorization_ok st _ rd hr]
  by_cases hra :
      (decide (st.currentRoutePath ≠ "") && (routeAuthLookup st st.currentRoutePath).isSome) = true
  · obtain ⟨hne, hsome⟩ := Bool.and_eq_true_iff.mp hra
    have h1 : st.currentRoutePath ≠ "" := of_decide_eq_true hne
    obtain ⟨f, hf⟩ : ∃ f, routeAuthLookup st st.currentRoutePath = some f := by
      cases hcase : routeAuthLookup st st.currentRoutePath with
      | none => rw [hcase] at hsome; simp at hsome
      | some f => exact ⟨f, rfl⟩
    have hget : getCustomRouteAuthorization st "" = Except.ok f := by
      simp only [getCustomRouteAuthorization, hres, getRoute_ok st _ rd hr, hf]
      simp [h1]
    simp only [hra, if_true, hget]
    exact ⟨_, rfl⟩
  · simp only [Bool.not_eq_true] at hra
    simp only [hra, Bool.false_eq_true, if_false]
    cases hca : st.customAuthorization with
    | some g => exact ⟨_, rfl⟩
    | none =>
      cases q with
      | fn f => exact ⟨_, rfl⟩
      | val v =>
        cases v with
        | str s =>
          obtain ⟨b2, hb2⟩ := findIn_ok s pv "" hnf
          cases hpv2 : pv with
          | arr l => exact ⟨_, rfl⟩
          | undef => rw [hpv2] at hnf; simp [nullFree] at hnf
          | null => rw [hpv2] at hnf; simp [nullFree] at hnf
          | bool b => rw [hpv2] at hb2; exact ⟨b2, by simp [hb2]⟩
          | num n => rw [hpv2] at hb2; exact ⟨b2, by simp [hb2]⟩
          | str s2 => rw [hpv2] at hb2; exact ⟨b2, by simp [hb2]⟩
          | obj kvs => rw [hpv2] at hb2; exact ⟨b2, by simp [hb2]⟩
        | undef => exact ⟨_, rfl⟩
        | null => exact ⟨_, rfl⟩
        | bool b => exact ⟨_, rfl⟩
        | num n => exact ⟨_, rfl⟩
        | arr l => exact ⟨_, rfl⟩
        | obj kvs => exact ⟨_, rfl⟩

theorem getPermissions_isOk (st : SecState) (rp : String) (rd : RouteData)
    (h : routeLookup st (resolvePath st rp) = some rd) :
    ∃ plan, getPermissions st rp = Except.ok plan := by
  obtain ⟨w, hw⟩ := getPermissionsSync_isOk st rp rd h
  simp only [getPermissions, getPermissionsFromRoute_ok st rp rd h, hw]
  split
  · split <;> exact ⟨_, rfl⟩
  · exact ⟨_, rfl⟩

theorem gateState_frame (st : SecState) (transport : String → FetchResult) :
    (gateState st transport).routes = st.routes ∧
    (gateState st transport).routeAuth = st.routeAuth ∧
    (gateState st transport).currentRoutePath = st.currentRoutePath ∧
    (gateState st transport).currentParams = st.currentParams ∧
    (gateState st transport).locationPath = st.locationPath ∧
    (gateState st transport).defaultPermissions = st.defaultPermissions ∧
    (gateState st transport).customAuthorization = st.customAuthorization ∧
    (gateState st transport).defaultAccess = st.defaultAccess := by
  unfold gateState applyFetchSuccess
  split <;> (try split) <;> exact ⟨rfl, rfl, rfl, rfl, rfl, rfl, rfl, rfl⟩

theorem redirect_ok (st : SecState) (rd : RouteData)
    (hr : routeLookup st st.currentRoutePath = some rd) :
    redirect st = Except.ok
      [Effect.locationSetPath
         (if rd.deniedRoute ≠ "" then rd.deniedRoute else "/forbidden"),
       Effect.locationReplace] := by
  unfold redirect getAccessDeniedRouteFor
  rw [resolvePath_current, getRoute_ok st _ rd hr]

/-- Claim C3: authorizeOrRedirect always completes with a decision (for a
known current route whose effective permissions document is null-free):
when authorized, the promise resolves with true; when not, it rejects
with false and as a side effect a redirect is issued to the route
deniedRoute target or, absent that, the fixed default target /forbidden;
and this completion happens for every transport outcome, so a failed
permissions fetch is absorbed and the decision proceeds. -/
theorem c3_gate_always_decides (st : SecState) (transport : String → FetchResult)
    (rd : RouteData)
    (hr : routeLookup st st.currentRoutePath = some rd)
    (hperm : nullFree (permsUsedOrEmpty (gateState st transport)
               st.currentRoutePath) = true) :
    ∃ g fx, authorizeOrRedirect st transport =
        Except.ok (g, gateState st transport, fx) ∧
      ((g = GateResult.resolvedTrue ∧
        isAuthorized (gateState st transport)
          (Query.val (JVal.str st.locationPath)) "" = Except.ok true) ∨
       (g = GateResult.rejectedFalse ∧
        isAuthorized (gateState st transport)
          (Query.val (JVal.str st.locationPath)) "" = Except.ok false ∧
        Effect.locationSetPath
          (if rd.deniedRoute ≠ "" then rd.deniedRoute else "/forbidden") ∈ fx)) := by
  obtain ⟨hroutes, hrauth, hcur, hparams, hloc, hdp, hca, hda⟩ :=
    gateState_frame st transport
  have hr2 : routeLookup (gateState st transport)
      (gateState st transport).currentRoutePath = some rd := by
    simp only [routeLookup] at hr ⊢
    rw [hroutes, hcur]
    exact hr
  have hperm2 : nullFree (permsUsedOrEmpty (gateState st transport)
      (gateState st transport).currentRoutePath) = true := by
    rw [hcur]; exact hperm
  obtain ⟨b, hb⟩ := isAuthorized_current_ok (gateState st transport)
    (Query.val (JVal.str st.locationPath)) rd hr2 hperm2
  obtain ⟨plan, hplan⟩ := getPermissions_isOk st "" rd
    (by rw [resolvePath_empty]; exact hr)
  have hbloc : isAuthorized (gateState st transport)
      (Query.val (JVal.str st.locationPath)) "" = Except.ok b := hb
  cases b with
  | true =>
    refine ⟨GateResult.resolvedTrue, gateEffects st, ?_, Or.inl ⟨rfl, hbloc⟩⟩
    simp only [authorizeOrRedirect, hplan, hbloc]
  | false =>
    have hred := redirect_ok (gateState st transport) rd hr2
    refine ⟨GateResult.rejectedFalse,
      gateEffects st ++
        [Effect.locationSetPath
           (if rd.deniedRoute ≠ "" then rd.deniedRoute else "/forbidden"),
         Effect.locationReplace], ?_, Or.inr ⟨rfl, hbloc, ?_⟩⟩
    · simp only [authorizeOrRedirect, hplan, hbloc, hred]
    · simp [List.mem_append]

theorem c3_gate_always_decides_witness :
    ∃ g fx, authorizeOrRedirect c3St c3Transport =
        Except.ok (g, gateState c3St c3Transport, fx) ∧
      ((g = GateResult.resolvedTrue ∧
        isAuthorized (gateState c3St c3Transport)
          (Query.val (JVal.str "/")) "" = Except.ok true) ∨
       (g = GateResult.rejectedFalse ∧
        isAuthorized (gateState c3St c3Transport)
          (Query.val (JVal.str "/")) "" = Except.ok false ∧
        Effect.locationSetPath "/forbidden" ∈ fx)) :=
  c3_gate_always_decides c3St c3Transport
    { permissions := JVal.undef, deniedRoute := "" } rfl rfl

/-- Claim C1 (code bug): route /r carries a per-route override strategy,
yet isAuthorized(query, /r) called while the current route / has none
throws instead of invoking that strategy and returning its truthiness:
the source calls getCustomRouteAuthorization() without its routePath
argument, so the lookup falls back to the current route.  The second
conjunct evaluates the strategy of /r at the same arguments and shows it
would have returned a truthy value. -/
theorem c1_route_override_lookup_bug :
    isAuthorized c1St (Query.val (JVal.str "x")) "/r" =
      Except.error (SecError.customRouteAuthorizationNotSet "/") ∧
    c1AuthFn (JVal.str "x") (JVal.obj [])
      { permissions := JVal.undef, deniedRoute := "" } (JVal.obj []) =
      JVal.bool true :=
  ⟨rfl, rfl⟩

/-- Claim C2 counterexample: on the sequence document [5, 6, 7] and the
query 1, findIn returns true -- the token advances through the defined
index position 1 of the sequence -- while the algorithm stated by the
claim (a sequence advances only through a contained element equal to the
token, no type coercion) yields false at the same input. -/
theorem c2_counterexample :
    findIn "1" c2Doc "" = Except.ok true ∧ findInSpec "1" c2Doc "/" = false :=
  ⟨rfl, rfl⟩

theorem findInAmendedLoop_eq (ts : List String) :
    ∀ c : JVal,
      findInAmendedLoop c ts =
        (match findInLoop c ts with
         | Except.error e => Except.error e
         | Except.ok v => Except.ok (truthy v)) := by
  induction ts with
  | nil => intro c; rfl
  | cons t ts ih =>
    intro c
    cases hp : getProp c t with
    | error e => simp [findInAmendedLoop, findInLoop, amendedStep, hp]
    | ok p =>
      by_cases hu : p.isUndef = true
      · cases c with
        | undef => simp [getProp] at hp
        | null => simp [getProp] at hp
        | bool b => simp [findInAmendedLoop, findInLoop, amendedStep, hp, hu, truthy]
        | num n => simp [findInAmendedLoop, findInLoop, amendedStep, hp, hu, truthy]
        | str s => simp [findInAmendedLoop, findInLoop, amendedStep, hp, hu, truthy]
        | obj kvs => simp [findInAmendedLoop, findInLoop, amendedStep, hp, hu, truthy]
        | arr l =>
          by_cases hmem : arrContainsStr l t = true
          · simp [findInAmendedLoop, findInLoop, amendedStep, hp, hu, hmem, ih]
          · simp only [Bool.not_eq_true] at hmem
            simp [findInAmendedLoop, findInLoop, amendedStep, hp, hu, hmem, truthy]
      · simp only [Bool.not_eq_true] at hu
        simp [findInAmendedLoop, findInLoop, amendedStep, hp, hu, ih]

/-- Claim C2 amended: findIn splits the query on the delimiter (default
slash, also when the delimiter is empty) and descends token by token,
but the first applicable rule at each step is JS property lookup -- a
mapping key, a sequence index position or length, a string index position
or length -- and only when that yields undefined does a sequence advance
through a contained element strictly equal to the token; otherwise the
cursor becomes null and iteration stops; the result is true iff the final
cursor is truthy, and property access on a null or undefined cursor
throws.  findIn agrees with that description on every input. -/
theorem c2_amended_matcher (query : String) (doc : JVal) (delimiter : String) :
    findIn query doc delimiter = findInAmended query doc delimiter := by
  unfold findIn findInAmended
  rw [findInAmendedLoop_eq]

/-- Claim C4: after one successful fetch for source url has written doc
to the cache, getPermissions for any route whose permissions resolve to
url yields that same cached document as an already-resolved promise (no
further transport request), and clearPermissionsCache removes all cache
entries, not a subset. -/
theorem c4_cache_idempotent (st : SecState) (url : String) (doc : JVal)
    (rp : String) (hdoc : doc ≠ JVal.undef)
    (hres : getPermissionsFromRoute (applyFetchSuccess st url doc) rp =
      Except.ok (JVal.str url)) :
    getPermissions (applyFetchSuccess st url doc) rp =
      Except.ok (GetPermsOutcome.immediate doc) ∧
    (∀ st2 : SecState, ∀ k,
      cacheGet (clearPermissionsCache st2).cache k = JVal.undef) := by
  constructor
  · have hsync : getPermissionsSync (applyFetchSuccess st url doc) rp =
        Except.ok doc := by
      simp only [getPermissionsSync, hres]
      show Except.ok (cacheGet (cachePut st.cache url doc) url) = Except.ok doc
      rw [cacheGet_cachePut]
    simp only [getPermissions, hres, hsync, isUndef_eq_false hdoc]
    simp
  · intro st2 k
    rfl

theorem c4_cache_idempotent_witness :
    getPermissions (applyFetchSuccess c4St "u" (JVal.str "D")) "/g" =
      Except.ok (GetPermsOutcome.immediate (JVal.str "D")) ∧
    (∀ st2 : SecState, ∀ k,
      cacheGet (clearPermissionsCache st2).cache k = JVal.undef) :=
  c4_cache_idempotent c4St "u" (JVal.str "D") "/g"
    (fun h => JVal.noConfusion h) rfl

/-- Claim C5 counterexample: with no overrides and permissions resolving
to the mapping with canEdit = [1, 2], isAuthorized on the query canEdit/2
returns false, not true as the claim states: the hierarchical step treats
the token 2 as an index position, which is out of range for a two-element
sequence, and 2 is not contained as a string either. -/
theorem c5_counterexample :
    isAuthorized c5StMap (Query.val (JVal.str "canEdit/2")) "" =
      Except.ok false := rfl

/-- Claim C5 amended: with no overrides, sequence permissions decide by
exact membership of the query string, so with permissions ["/a", "/b"]
the query /a is authorized and /c is not; mapping permissions decide by
hierarchical descent in which a sequence matches index positions rather
than element values, so with canEdit = [1, 2] both canEdit/2 and
canEdit/5 are denied, while with canEdit = [1, 2, 3] canEdit/2 is allowed
(index position 2 exists) and canEdit/3 is denied; the dispatch between
the two behaviours is decided by the shape of the permissions value, not
of the query. -/
theorem c5_amended_dispatch :
    isAuthorized c5StArr (Query.val (JVal.str "/a")) "" = Except.ok true ∧
    isAuthorized c5StArr (Query.val (JVal.str "/c")) "" = Except.ok false ∧
    isAuthorized c5StMap (Query.val (JVal.str "canEdit/2")) "" = Except.ok false ∧
    isAuthorized c5StMap (Query.val (JVal.str "canEdit/5")) "" = Except.ok false ∧
    isAuthorized c5StMap3 (Query.val (JVal.str "canEdit/2")) "" = Except.ok true ∧
    isAuthorized c5StMap3 (Query.val (JVal.str "canEdit/3")) "" = Except.ok false :=
  ⟨rfl, rfl, rfl, rfl, rfl, rfl⟩

theorem isAuthorized_undef_default (st : SecState) (rp : String) (rd : RouteData)
    (hr : routeLookup st (resolvePath st rp) = some rd)
    (hra : routeAuthLookup st (resolvePath st rp) = none)
    (hglob : st.customAuthorization = none) :
    isAuthorized st (Query.val JVal.undef) rp = Except.ok st.defaultAccess := by
  have hr2 : routeLookup st (resolvePath st (resolvePath st rp)) = some rd := by
    rw [resolvePath_idem]; exact hr
  obtain ⟨pv, hpv⟩ := permsUsed_isOk st (resolvePath st rp) rd hr2
  simp only [isAuthorized, getRoute_ok st _ rd hr, hpv,
    hasCustomRouteAuthorization_ok st _ rd hr, hra, Option.isSome_none,
    Bool.and_false, Bool.false_eq_true, if_false, hglob]

/-- Claim C6: with no per-route strategy on the route, no global strategy
and an absent query, isAuthorized returns the current value of the
process-wide Default Access Policy; setDefaultAccess stores the coerced
boolean, so subsequent isAuthorized calls return the new value; and the
toggle leaves the permissions cache untouched. -/
theorem c6_default_access (st : SecState) (rp : String) (rd : RouteData) (v : JVal)
    (hr : routeLookup st (resolvePath st rp) = some rd)
    (hra : routeAuthLookup st (resolvePath st rp) = none)
    (hglob : st.customAuthorization = none) :
    isAuthorized st (Query.val JVal.undef) rp = Except.ok st.defaultAccess ∧
    isAuthorized (setDefaultAccess st v) (Query.val JVal.undef) rp =
      Except.ok (truthy v) ∧
    (setDefaultAccess st v).cache = st.cache := by
  refine ⟨isAuthorized_undef_default st rp rd hr hra hglob, ?_, rfl⟩
  exact isAuthorized_undef_default (setDefaultAccess st v) rp rd hr hra hglob

theorem c6_default_access_witness :
    isAuthorized c6St (Query.val JVal.undef) "" = Except.ok false ∧
    isAuthorized (setDefaultAccess c6St (JVal.bool true))
      (Query.val JVal.undef) "" = Except.ok true ∧
    (setDefaultAccess c6St (JVal.bool true)).cache = c6St.cache :=
  c6_default_access c6St "" { permissions := JVal.undef, deniedRoute := "" }
    (JVal.bool true) rfl rfl rfl

theorem getPermissionsFromRoute_resolve (st : SecState) (rp : String) :
    getPermissionsFromRoute st (resolvePath st rp) =
      getPermissionsFromRoute st rp := by
  simp only [getPermissionsFromRoute, resolvePath_idem]

theorem getPermissionsSync_resolve (st : SecState) (rp : String) :
    getPermissionsSync st (resolvePath st rp) = getPermissionsSync st rp := by
  unfold getPermissionsSync
  rw [getPermissionsFromRoute_resolve]

theorem jsSplitGo_ne_nil (sep : List Char) (fuel : Nat) :
    ∀ l acc, jsSplitGo sep fuel l acc ≠ [] := by
  induction fuel with
  | zero =>
    intro l acc
    cases l <;> simp [jsSplitGo]
  | succ f ih =>
    intro l acc
    cases l with
    | nil => simp [jsSplitGo]
    | cons c cs =>
      rw [jsSplitGo]
      split
      · simp
      · exact ih cs (c :: acc)

theorem jsSplit_ne_nil (s : String) (sep : String) (h : sep ≠ "") :
    jsSplit s sep ≠ [] := by
  unfold jsSplit
  simp only [h, if_false]
  intro hcon
  exact jsSplitGo_ne_nil sep.data s.data.length s.data []
    (List.map_eq_nil_iff.mp hcon)

theorem findIn_emptyObj (s : String) (d : String) :
    findIn s (JVal.obj []) d = Except.ok false := by
  unfold findIn
  cases htok : jsSplit s (if d = "" then "/" else d) with
  | nil =>
    exact absurd htok (jsSplit_ne_nil s _ (by split <;> simp_all))
  | cons t ts =>
    simp [findInLoop, getProp, objLookup, JVal.isUndef, truthy]

/-- Claim C7: isAuthorized evaluates against the synchronous resolver
only, with a falsy resolution replaced by an empty mapping: the
permissions value it decides on is never null (conjunct 1), a synchronous
cache miss yields the empty mapping, never null (conjunct 2), and even in
a state where getPermissions would issue a fetch (URL permissions, cold
cache), isAuthorized does not fetch but decides immediately against the
empty mapping (conjunct 3); the embedding of isAuthorized is a pure
function returning no state and no transport effect, mirroring a source
body that performs no cache write and no HTTP call. -/
theorem c7_sync_resolution (st : SecState) (q : Query) (rp : String)
    (rd : RouteData)
    (hr : routeLookup st (resolvePath st rp) = some rd) :
    (∀ v, permsUsed st (resolvePath st rp) = Except.ok v → v ≠ JVal.null) ∧
    (getPermissionsSync st (resolvePath st rp) = Except.ok JVal.undef →
      permsUsed st (resolvePath st rp) = Except.ok (JVal.obj [])) ∧
    (∀ s url, q = Query.val (JVal.str s) →
      routeAuthLookup st (resolvePath st rp) = none →
      st.customAuthorization = none →
      getPermissions st rp = Except.ok (GetPermsOutcome.fetchFrom url) →
      isAuthorized st q rp = Except.ok false) := by
  refine ⟨?_, ?_, ?_⟩
  · intro v hv
    unfold permsUsed at hv
    cases hsync : getPermissionsSync st (resolvePath st rp) with
    | error e => rw [hsync] at hv; exact absurd hv (by simp)
    | ok w =>
      rw [hsync] at hv
      simp only [Except.ok.injEq] at hv
      subst hv
      by_cases hw : truthy w = true
      · simp only [hw, if_true]
        intro hnull
        subst hnull
        simp [truthy] at hw
      · simp only [Bool.not_eq_true] at hw
        simp only [hw, Bool.false_eq_true, if_false]
        intro hcon
        exact JVal.noConfusion hcon
  · intro h
    unfold permsUsed
    rw [h]
    simp [truthy]
  · intro s url hq hra hglob hfetch
    subst hq
    obtain ⟨w, hw⟩ := getPermissionsSync_isOk st rp rd hr
    have hwu : w = JVal.undef := by
      simp only [getPermissions, getPermissionsFromRoute_ok st rp rd hr, hw]
        at hfetch
      split at hfetch
      · split at hfetch
        · cases w <;> simp_all [JVal.isUndef]
        · simp at hfetch
      · simp at hfetch
    subst hwu
    have hw2 : getPermissionsSync st (resolvePath st rp) =
        Except.ok JVal.undef := by
      rw [getPermissionsSync_resolve]; exact hw
    have hpu : permsUsed st (resolvePath st rp) = Except.ok (JVal.obj []) := by
      unfold permsUsed; rw [hw2]; simp [truthy]
    simp only [isAuthorized, getRoute_ok st _ rd hr, hpu,
      hasCustomRouteAuthorization_ok st _ rd hr, hra, Option.isSome_none,
      Bool.and_false, Bool.false_eq_true, if_false, hglob, findIn_emptyObj]

theorem c7_sync_resolution_witness :
    isAuthorized c7St (Query.val (JVal.str "q")) "/u" = Except.ok false ∧
    getPermissions c7St "/u" =
      Except.ok (GetPermsOutcome.fetchFrom "http://x") ∧
    permsUsed c7St (resolvePath c7St "/u") = Except.ok (JVal.obj []) := by
  refine ⟨?_, rfl, ?_⟩
  · exact (c7_sync_resolution c7St (Query.val (JVal.str "q")) "/u"
      { permissions := JVal.str "http://x", deniedRoute := "" } rfl).2.2
      "q" "http://x" rfl rfl rfl rfl
  · exact (c7_sync_resolution c7St (Query.val (JVal.str "q")) "/u"
      { permissions := JVal.str "http://x", deniedRoute := "" } rfl).2.1 rfl

theorem resolvePath_ne (st : SecState) (rp : String) (h : rp ≠ "") :
    resolvePath st rp = rp := by
  unfold resolvePath
  simp [h]

/-- Claim C9: for every known route, getPermissionsFromRoute returns the
route permissions field when present and truthy and the process-wide
default permissions otherwise; and every route-scoped operation handed an
unknown route identifier fails with the route-not-found error rather than
returning a value. -/
theorem c9_route_resolution (st : SecState) (rp : String) (q : Query)
    (perms : JVal) (target : String) :
    (∀ rd, routeLookup st rp = some rd → rp ≠ "" →
      getPermissionsFromRoute st rp =
        Except.ok (if truthy rd.permissions then rd.permissions
                   else st.defaultPermissions)) ∧
    (routeLookup st rp = none → rp ≠ "" →
      getPermissionsFromRoute st rp = Except.error (SecError.routeNotFound rp) ∧
      getPermissionsSync st rp = Except.error (SecError.routeNotFound rp) ∧
      getPermissions st rp = Except.error (SecError.routeNotFound rp) ∧
      isAuthorized st q rp = Except.error (SecError.routeNotFound rp) ∧
      getAccessDeniedRouteFor st rp = Except.error (SecError.routeNotFound rp) ∧
      setPermissions st perms rp = Except.error (SecError.routeNotFound rp) ∧
      setAccessDeniedRouteFor st target rp =
        Except.error (SecError.routeNotFound rp)) := by
  constructor
  · intro rd h hne
    exact getPermissionsFromRoute_ok st rp rd
      (by rw [resolvePath_ne st rp hne]; exact h)
  · intro h hne
    have hres : resolvePath st rp = rp := resolvePath_ne st rp hne
    have hgr : getRoute st rp = Except.error (SecError.routeNotFound rp) := by
      unfold getRoute; rw [h]
    refine ⟨?_, ?_, ?_, ?_, ?_, ?_, ?_⟩
    · simp only [getPermissionsFromRoute, hres, hgr]
    · simp only [getPermissionsSync, getPermissionsFromRoute, hres, hgr]
    · simp only [getPermissions, getPermissionsFromRoute, hres, hgr]
    · simp only [isAuthorized, hres, hgr]
    · simp only [getAccessDeniedRouteFor, hres, hgr]
    · simp only [setPermissions, hres, hgr]
    · simp only [setAccessDeniedRouteFor, hres, hgr]

theorem c9_route_resolution_witness :
    getPermissionsFromRoute c9St "/" = Except.ok (JVal.obj [("k", JVal.num 1)]) ∧
    getPermissions c9St "/bad" = Except.error (SecError.routeNotFound "/bad") ∧
    isAuthorized c9St (Query.val JVal.undef) "/bad" =
      Except.error (SecError.routeNotFound "/bad") := by
  refine ⟨?_, ?_, ?_⟩
  · exact (c9_route_resolution c9St "/" (Query.val JVal.undef) JVal.undef "x").1
      { permissions := JVal.obj [("k", JVal.num 1)], deniedRoute := "" } rfl
      (by decide)
  · exact ((c9_route_resolution c9St "/bad" (Query.val JVal.undef)
      JVal.undef "x").2 rfl (by decide)).2.2.1
  · exact ((c9_route_resolution c9St "/bad" (Query.val JVal.undef)
      JVal.undef "x").2 rfl (by decide)).2.2.2.1

/-- Claim C10: for every route path present in the route table (in a
table without the pathological key [object Object]), the public setter
setAccessDeniedRouteFor throws instead of setting the deniedRoute field,
because the source indexes the route table with the resolved route
object, which coerces to the property key [object Object]; consequently
the denial-redirect target can never be changed through this setter. -/
theorem c10_set_denied_route_throws (st : SecState) (rp : String)
    (target : String) (rd : RouteData)
    (hr : routeLookup st rp = some rd) (hne : rp ≠ "")
    (hobj : routeLookup st "[object Object]" = none) :
    setAccessDeniedRouteFor st target rp =
      Except.error (SecError.unknownRouteForDeniedRoute "[object Object]") := by
  have hres : resolvePath st rp = rp := resolvePath_ne st rp hne
  simp only [setAccessDeniedRouteFor, hres, getRoute_ok st rp rd hr, hobj]

theorem c10_set_denied_route_throws_witness :
    setAccessDeniedRouteFor c10St "/denied" "/" =
      Except.error (SecError.unknownRouteForDeniedRoute "[object Object]") :=
  c10_set_denied_route_throws c10St "/" "/denied"
    { permissions := JVal.undef, deniedRoute := "" } rfl (by decide) rfl
